import Mathlib

/-!
# Verification of the hook tailer execution pipeline

Shallow embedding of `eden/mononoke/hook_tailer/tailer.rs`: the `Tailer`
configuration, the per-changeset evaluator `run_hooks_for_changeset`, and the
stream pipeline `run_on_stream` / `run_changesets` / `run_with_limit`.

External collaborators (bookmark resolution, ancestor traversal, changeset
loading, the hook engine) are abstracted into an `Env` record of functions, as
the pipeline treats them as opaque calls. The pipeline's observable behaviour
is captured as the list of emitted stream items, the progress-reporter log
events, the task-level log events, and the trace of collaborator calls.

The bounded concurrent stage (`futures::stream::StreamExt::buffered`) is
modelled twice: denotationally as an in-order map (its documented contract:
results are yielded in the order the futures were produced), and operationally
as a small-step machine `BufStep` in which tasks may complete in any order,
so that order-independence and the concurrency bound are actual theorems.
-/

namespace HookTailer

/-- Opaque, globally unique identifier of one revision snapshot. -/
abbrev ChangesetId := Nat

/-- Named pointer resolved to zero or one `ChangesetId` at query time. -/
abbrev BookmarkName := String

/-- Opaque per-hook result; collected, never interpreted, by this pipeline. -/
abbrev HookOutcome := Nat

/-- Timing statistics measured around a hook-engine call (opaque here). -/
abbrev FutureStats := Nat

/-- A loaded changeset: the pipeline only consults the number of parents (for
the merge flag) and the size of the file-changes map. -/
structure Changeset where
  parents : Nat
  file_changes : Nat
  deriving DecidableEq

/-- Modelled from the spec: a `Changeset` "exposes a merge flag (more than one
parent)". The `BonsaiChangeset::is_merge` implementation itself is not among
this repository's sources. -/
def Changeset.is_merge (cs : Changeset) : Bool := decide (1 < cs.parents)

/-- Errors flowing through the pipeline. `noSuchBookmark` embeds
`ErrorKind::NoSuchBookmark`; `storage` stands for a changeset-load failure,
`hookFailure` for a hook-engine failure, and `spawnFailure` for the
`JoinError` produced when a spawned task terminates abruptly (converted by
the first `?` of `task::spawn(..).await??`). -/
inductive Error where
  | noSuchBookmark (bm : BookmarkName)
  | storage (cs : ChangesetId)
  | hookFailure (cs : ChangesetId)
  | spawnFailure
  deriving DecidableEq

/-- Output record for one successfully evaluated, non-skipped changeset. -/
structure HookExecutionInstance where
  cs_id : ChangesetId
  file_count : Nat
  stats : FutureStats
  outcomes : List HookOutcome
  deriving DecidableEq

/-- Log events observable from the pipeline: the progress reporter's
"Starting hooks for {} ({} already started)" line, the evaluator's
"Skipped merge commit {}" info line, and its "Running hooks for changeset"
debug line. -/
inductive LogEvent where
  | starting_hooks (cs : ChangesetId) (count : Nat)
  | skipped_merge (cs : ChangesetId)
  | running_hooks (cs : ChangesetId)
  deriving DecidableEq

/-- Collaborator invocations traced by the embedding: a changeset load
(`cs_id.load(ctx, repo.blobstore())`) and a hook-engine call
(`hm.run_hooks_for_bookmark(..)`). -/
inductive Call where
  | load_changeset (cs : ChangesetId)
  | hook_run (cs : ChangesetId)
  deriving DecidableEq

/-- The external collaborators of §6 of the spec, abstracted as functions:
bookmark resolution, ancestor enumeration, the changeset loader, the hook
engine (result and measured stats), and whether the spawned unit of work for
a given changeset terminates abruptly. -/
structure Env where
  resolve_bookmark : BookmarkName → Option ChangesetId
  ancestors : ChangesetId → List ChangesetId
  load : ChangesetId → Except Error Changeset
  run_hooks : ChangesetId → Except Error (List HookOutcome)
  hook_stats : ChangesetId → FutureStats
  panics : ChangesetId → Bool

/-- The `Tailer` configuration fields the pipeline reads (the collaborator
handles `ctx`, `repo`, `hook_manager`, `cross_repo_push_source` live in
`Env`). -/
structure Tailer where
  bookmark : BookmarkName
  concurrency : Nat
  log_interval : Nat
  exclude_merges : Bool
  excludes : List ChangesetId

/-- `run_hooks_for_changeset`: load the changeset (load failure is fatal for
the slot); if merges are excluded and the changeset is a merge, log a skip and
return no result; otherwise record the file count, run the hooks (timed), and
build a `HookExecutionInstance`. Returns the result together with the log
events emitted and the collaborator calls made. -/
def run_hooks_for_changeset (env : Env) (em : Bool) (cs_id : ChangesetId) :
    Except Error (Option HookExecutionInstance) × List LogEvent × List Call :=
  match env.load cs_id with
  | .error e => (.error e, [], [.load_changeset cs_id])
  | .ok cs =>
    if em && cs.is_merge then
      (.ok none, [.skipped_merge cs_id], [.load_changeset cs_id])
    else
      let file_count := cs.file_changes
      match env.run_hooks cs_id with
      | .error e =>
          (.error e, [.running_hooks cs_id], [.load_changeset cs_id, .hook_run cs_id])
      | .ok outcomes =>
          (.ok (some ⟨cs_id, file_count, env.hook_stats cs_id, outcomes⟩),
           [.running_hooks cs_id], [.load_changeset cs_id, .hook_run cs_id])

/-- One slot of the `map` stage of `run_on_stream`: an error item passes
through without scheduling work; an ok item is run inside a spawned task, and
abrupt termination of that task surfaces as `Error.spawnFailure` via
`task::spawn(..).await??`. -/
def eval_slot (env : Env) (em : Bool) :
    Except Error ChangesetId →
    Except Error (Option HookExecutionInstance) × List LogEvent × List Call
  | .error e => (.error e, [], [])
  | .ok cs_id =>
    if env.panics cs_id then (.error .spawnFailure, [], [])
    else run_hooks_for_changeset env em cs_id

/-- The stream-item value produced by one slot (first component of
`eval_slot`). -/
def slot_result (env : Env) (em : Bool) (i : Except Error ChangesetId) :
    Except Error (Option HookExecutionInstance) :=
  (eval_slot env em i).1

/-- The `try_filter` stage: drop ok items whose changeset is in the exclusion
set; error items pass through untouched. -/
def exclusion_filter (excludes : List ChangesetId) :
    List (Except Error ChangesetId) → List (Except Error ChangesetId) :=
  List.filter fun item =>
    match item with
    | .ok cs_id => !excludes.contains cs_id
    | .error _ => true

/-- The `inspect_ok` progress-reporter stage, started at counter value
`count`: error items are not inspected; for each ok item the code evaluates
`count % log_interval` (which panics in Rust when `log_interval = 0`, modelled
as `none`), logs when the remainder is zero, then increments the counter.
Returns the progress log events in order. -/
def progress_logs (li : Nat) : Nat → List (Except Error ChangesetId) → Option (List LogEvent)
  | _, [] => some []
  | count, .error _ :: rest => progress_logs li count rest
  | count, .ok cs_id :: rest =>
    if li = 0 then none
    else
      match progress_logs li (count + 1) rest with
      | none => none
      | some logs =>
        some (if count % li = 0 then .starting_hooks cs_id count :: logs else logs)

/-- The final `try_filter_map` stage: drop `ok none` (merge-skipped) items,
unwrap `ok (some _)` items, pass errors through. -/
def skip_filter :
    List (Except Error (Option HookExecutionInstance)) →
    List (Except Error HookExecutionInstance)
  | [] => []
  | .error e :: rest => .error e :: skip_filter rest
  | .ok none :: rest => skip_filter rest
  | .ok (some inst) :: rest => .ok inst :: skip_filter rest

deriving instance DecidableEq for Except

/-- Everything observable from one pipeline run: the emitted stream items in
order, the progress-reporter log events in order, the task-level log events
(their interleaving with other logs is scheduler-dependent, so they are kept
in a separate list, concatenated in slot order), and the collaborator call
trace (likewise in slot order). -/
structure RunOutput where
  output : List (Except Error HookExecutionInstance)
  plogs : List LogEvent
  tlogs : List LogEvent
  calls : List Call
  deriving DecidableEq

/-- `Tailer::run_on_stream` over an already-materialised input sequence:
exclusion filter, then progress reporting (`none` models the Rust panic on
`log_interval = 0`), then per-slot evaluation whose results are re-assembled
in input order by `buffered`, then the skip filter. -/
def run_on_stream (t : Tailer) (env : Env) (input : List (Except Error ChangesetId)) :
    Option RunOutput :=
  let filtered := exclusion_filter t.excludes input
  match progress_logs t.log_interval 0 filtered with
  | none => none
  | some plogs =>
    let results := filtered.map (eval_slot env t.exclude_merges)
    some
      { output := skip_filter (results.map Prod.fst)
        plogs := plogs
        tlogs := (results.map fun r => r.2.1).flatten
        calls := (results.map fun r => r.2.2).flatten }

/-- `Tailer::run_changesets`: run the pipeline on an explicit list of
changeset identifiers, each wrapped as an ok stream item. -/
def run_changesets (t : Tailer) (env : Env) (changesets : List ChangesetId) :
    Option RunOutput :=
  run_on_stream t env (changesets.map .ok)

/-- `Tailer::run_with_limit`: resolve the tailer's bookmark; if resolution
yields nothing the whole stream is the single `NoSuchBookmark` error (the
`try_flatten_stream` of a failed future) and no collaborator is called;
otherwise enumerate ancestors of the head, truncate to `limit`, and run the
pipeline on them. -/
def run_with_limit (t : Tailer) (env : Env) (limit : Nat) : Option RunOutput :=
  match env.resolve_bookmark t.bookmark with
  | none =>
    some { output := [.error (.noSuchBookmark t.bookmark)]
           plogs := [], tlogs := [], calls := [] }
  | some head =>
    run_on_stream t env (((env.ancestors head).take limit).map .ok)

/-! ## Operational model of the bounded buffered stage

`StreamExt::buffered(k)` keeps up to `k` futures of the mapped stream in
flight and yields their results in the order the futures were produced. The
machine below makes the nondeterministic completion order explicit: `pull`
starts the next task when a slot is free, `finish` lets ANY in-flight task
complete, and `emit` yields the front task's result once it has completed.
`f` gives each task's eventual result (task execution itself is pure in this
embedding). -/

/-- State of the buffered stage: tasks not yet started, the in-flight window
(in start order, each flagged with whether it has completed), and the results
emitted so far. -/
structure BufState (α β : Type) where
  remaining : List α
  inflight : List (α × Bool)
  output : List β

/-- Initial state of the buffered stage on a given task list. -/
def init_state {α β : Type} (inputs : List α) : BufState α β :=
  ⟨inputs, [], []⟩

/-- One scheduler step of `buffered k` with task-result function `f`. -/
inductive BufStep (k : Nat) {α β : Type} (f : α → β) :
    BufState α β → BufState α β → Prop where
  | pull (a : α) (rest : List α) (infl : List (α × Bool)) (out : List β) :
      infl.length < k →
      BufStep k f ⟨a :: rest, infl, out⟩ ⟨rest, infl ++ [(a, false)], out⟩
  | finish (rem : List α) (l : List (α × Bool)) (a : α) (r : List (α × Bool))
      (out : List β) :
      BufStep k f ⟨rem, l ++ (a, false) :: r, out⟩ ⟨rem, l ++ (a, true) :: r, out⟩
  | emit (rem : List α) (a : α) (infl : List (α × Bool)) (out : List β) :
      BufStep k f ⟨rem, (a, true) :: infl, out⟩ ⟨rem, infl, out ++ [f a]⟩

/-- A buffered-stage execution: any finite sequence of scheduler steps. -/
def BufReaches (k : Nat) {α β : Type} (f : α → β) (s s' : BufState α β) : Prop :=
  Relation.ReflTransGen (BufStep k f) s s'

/-- The buffered stage is drained: no task pending, none in flight. -/
def BufFinal {α β : Type} (s : BufState α β) : Prop :=
  s.remaining = [] ∧ s.inflight = []

/-- The changeset identifiers of the ok items of a stream, in order (the
sequence of items the progress counter counts). -/
def ok_ids : List (Except Error ChangesetId) → List ChangesetId
  | [] => []
  | .ok c :: rest => c :: ok_ids rest
  | .error _ :: rest => ok_ids rest

/-- The stream items emitted by `run_on_stream`, as a standalone function:
slot results of the filtered input in input order, skip-filtered. -/
def stream_output (t : Tailer) (env : Env) (input : List (Except Error ChangesetId)) :
    List (Except Error HookExecutionInstance) :=
  skip_filter ((exclusion_filter t.excludes input).map (slot_result env t.exclude_merges))

/-! ## Stage lemmas -/

theorem skip_filter_append (xs ys : List (Except Error (Option HookExecutionInstance))) :
    skip_filter (xs ++ ys) = skip_filter xs ++ skip_filter ys := by
  induction xs with
  | nil => rfl
  | cons x xs ih =>
    match x with
    | .error e => simp [skip_filter, ih]
    | .ok none => simp [skip_filter, ih]
    | .ok (some inst) => simp [skip_filter, ih]

theorem skip_filter_length_le (l : List (Except Error (Option HookExecutionInstance))) :
    (skip_filter l).length ≤ l.length := by
  induction l with
  | nil => simp [skip_filter]
  | cons x xs ih =>
    match x with
    | .error e => simpa [skip_filter] using ih
    | .ok none => simp [skip_filter]; omega
    | .ok (some inst) => simpa [skip_filter] using ih

theorem mem_of_mem_skip_filter {inst : HookExecutionInstance}
    {l : List (Except Error (Option HookExecutionInstance))}
    (h : Except.ok inst ∈ skip_filter l) : Except.ok (some inst) ∈ l := by
  induction l with
  | nil => simp [skip_filter] at h
  | cons x xs ih =>
    match x with
    | .error e =>
      simp only [skip_filter, List.mem_cons] at h
      rcases h with h | h
      · exact absurd h (by simp)
      · exact List.mem_cons_of_mem _ (ih h)
    | .ok none => exact List.mem_cons_of_mem _ (ih h)
    | .ok (some inst') =>
      simp only [skip_filter, List.mem_cons] at h
      rcases h with h | h
      · injection h with h
        subst h
        exact List.mem_cons_self _ _
      · exact List.mem_cons_of_mem _ (ih h)

theorem exclusion_filter_append (ex : List ChangesetId)
    (xs ys : List (Except Error ChangesetId)) :
    exclusion_filter ex (xs ++ ys) = exclusion_filter ex xs ++ exclusion_filter ex ys := by
  simp [exclusion_filter, List.filter_append]

theorem mem_exclusion_filter_not_excluded {ex : List ChangesetId}
    {input : List (Except Error ChangesetId)} {c : ChangesetId}
    (h : Except.ok c ∈ exclusion_filter ex input) : c ∉ ex := by
  have := List.of_mem_filter h
  simp only [Bool.not_eq_true'] at this
  intro hc
  have : ex.contains c = true := by simpa using hc
  simp_all

theorem exclusion_filter_ok_not_excluded {ex : List ChangesetId} {c : ChangesetId}
    (hc : c ∉ ex) (xs ys : List (Except Error ChangesetId)) :
    exclusion_filter ex (xs ++ Except.ok c :: ys) =
      exclusion_filter ex xs ++ Except.ok c :: exclusion_filter ex ys := by
  simp [exclusion_filter, List.filter_append, hc]

/-- `run_on_stream` succeeds exactly when the progress stage does not panic,
and then every component of its result is determined by the stages. -/
theorem run_on_stream_eq_some {t : Tailer} {env : Env}
    {input : List (Except Error ChangesetId)} {r : RunOutput}
    (h : run_on_stream t env input = some r) :
    r.output = stream_output t env input
    ∧ progress_logs t.log_interval 0 (exclusion_filter t.excludes input) = some r.plogs
    ∧ r.tlogs = (((exclusion_filter t.excludes input).map
        (eval_slot env t.exclude_merges)).map fun p => p.2.1).flatten
    ∧ r.calls = (((exclusion_filter t.excludes input).map
        (eval_slot env t.exclude_merges)).map fun p => p.2.2).flatten := by
  unfold run_on_stream at h
  rcases hp : progress_logs t.log_interval 0 (exclusion_filter t.excludes input) with _ | plogs
  · simp [hp] at h
  · simp only [hp] at h
    cases h
    refine ⟨?_, rfl, rfl, rfl⟩
    simp [stream_output, slot_result, List.map_map]
    rfl

/-- Whether a traced call is a changeset load. -/
def Call.is_load : Call → Bool
  | .load_changeset _ => true
  | .hook_run _ => false

theorem eval_slot_calls_shape (env : Env) (em : Bool) (c : ChangesetId) :
    (eval_slot env em (.ok c)).2.2 = []
    ∨ (eval_slot env em (.ok c)).2.2 = [.load_changeset c]
    ∨ (eval_slot env em (.ok c)).2.2 = [.load_changeset c, .hook_run c] := by
  cases hp : env.panics c with
  | true => left; simp [eval_slot, hp]
  | false =>
    cases hl : env.load c with
    | error e => right; left; simp [eval_slot, hp, run_hooks_for_changeset, hl]
    | ok cs =>
      by_cases hm : (em && cs.is_merge) = true
      · right; left; simp [eval_slot, hp, run_hooks_for_changeset, hl, hm]
      · cases hh : env.run_hooks c with
        | error e =>
          right; right
          simp [eval_slot, hp, run_hooks_for_changeset, hl, hm, hh]
        | ok outs =>
          right; right
          simp [eval_slot, hp, run_hooks_for_changeset, hl, hm, hh]

theorem eval_slot_calls_mem {env : Env} {em : Bool} {i : Except Error ChangesetId}
    {x : Call} (hx : x ∈ (eval_slot env em i).2.2) :
    ∃ c, i = .ok c ∧ (x = .load_changeset c ∨ x = .hook_run c) := by
  match i with
  | .error e => simp [eval_slot] at hx
  | .ok c =>
    refine ⟨c, rfl, ?_⟩
    rcases eval_slot_calls_shape env em c with h | h | h <;> rw [h] at hx <;> simp_all

theorem eval_slot_load_count (env : Env) (em : Bool) (c : ChangesetId) :
    ((eval_slot env em (.ok c)).2.2.count (Call.load_changeset c)) ≤ 1 := by
  rcases eval_slot_calls_shape env em c with h | h | h <;> rw [h] <;> simp [List.count_cons]

theorem eval_slot_hook_count (env : Env) (em : Bool) (c : ChangesetId) :
    ((eval_slot env em (.ok c)).2.2.count (Call.hook_run c)) ≤ 1 := by
  rcases eval_slot_calls_shape env em c with h | h | h <;> rw [h] <;> simp [List.count_cons]

theorem eval_slot_countP_load_le_one (env : Env) (em : Bool) (i : Except Error ChangesetId) :
    ((eval_slot env em i).2.2.countP Call.is_load) ≤ 1 := by
  match i with
  | .error e => simp [eval_slot]
  | .ok c =>
    rcases eval_slot_calls_shape env em c with h | h | h <;> rw [h] <;>
      simp [List.countP_cons, Call.is_load]

theorem eval_slot_ok_cs_id {env : Env} {em : Bool} {c : ChangesetId}
    {inst : HookExecutionInstance}
    (h : (eval_slot env em (.ok c)).1 = .ok (some inst)) : inst.cs_id = c := by
  cases hp : env.panics c with
  | true => simp [eval_slot, hp] at h
  | false =>
    cases hl : env.load c with
    | error e => simp [eval_slot, hp, run_hooks_for_changeset, hl] at h
    | ok cs =>
      by_cases hm : (em && cs.is_merge) = true
      · simp [eval_slot, hp, run_hooks_for_changeset, hl, hm] at h
      · cases hh : env.run_hooks c with
        | error e => simp [eval_slot, hp, run_hooks_for_changeset, hl, hm, hh] at h
        | ok outs =>
          simp [eval_slot, hp, run_hooks_for_changeset, hl, hm, hh] at h
          rw [← h]

theorem mem_ok_of_mem_ok_ids {c : ChangesetId} :
    ∀ {l : List (Except Error ChangesetId)}, c ∈ ok_ids l → Except.ok c ∈ l := by
  intro l
  induction l with
  | nil => simp [ok_ids]
  | cons x rest ih =>
    match x with
    | .error e =>
      intro h
      exact List.mem_cons_of_mem _ (ih (by simpa [ok_ids] using h))
    | .ok a =>
      intro h
      simp only [ok_ids, List.mem_cons] at h
      rcases h with rfl | h
      · exact List.mem_cons_self _ _
      · exact List.mem_cons_of_mem _ (ih h)

theorem progress_logs_isSome {li : Nat} (hli : 0 < li) :
    ∀ (n : Nat) (l : List (Except Error ChangesetId)), (progress_logs li n l).isSome := by
  intro n l
  induction l generalizing n with
  | nil => simp [progress_logs]
  | cons x rest ih =>
    match x with
    | .error e => simpa [progress_logs] using ih n
    | .ok c =>
      have hne : ¬ li = 0 := by omega
      rcases h : progress_logs li (n + 1) rest with _ | logs
      · have := ih (n + 1)
        rw [h] at this
        simp at this
      · simp [progress_logs, hne, h]

theorem progress_logs_mem_iff {li : Nat} (hli : 0 < li) :
    ∀ (l : List (Except Error ChangesetId)) (n : Nat) (logs : List LogEvent),
      progress_logs li n l = some logs →
      ∀ (c : ChangesetId) (m : Nat),
        LogEvent.starting_hooks c m ∈ logs ↔
          (m % li = 0 ∧ ∃ j, m = n + j ∧ (ok_ids l)[j]? = some c) := by
  intro l
  induction l with
  | nil =>
    intro n logs h c m
    simp only [progress_logs, Option.some_inj] at h
    subst h
    simp [ok_ids]
  | cons x rest ih =>
    match x with
    | .error e =>
      intro n logs h c m
      exact (ih n logs (by simpa [progress_logs] using h) c m).trans (by simp [ok_ids])
    | .ok a =>
      intro n logs h c m
      have hne : ¬ li = 0 := by omega
      rcases h' : progress_logs li (n + 1) rest with _ | logs'
      · simp [progress_logs, hne, h'] at h
      · simp only [progress_logs, hne, if_false, h'] at h
        have ihr := ih (n + 1) logs' h' c m
        by_cases hn : n % li = 0
        · simp only [hn, if_true, Option.some_inj] at h
          subst h
          simp only [List.mem_cons, ihr]
          constructor
          · rintro (heq | ⟨hm, j, rfl, hj⟩)
            · injection heq with h1 h2
              subst h1; subst h2
              exact ⟨hn, 0, by simp [ok_ids]⟩
            · exact ⟨hm, j + 1, by omega, by simpa [ok_ids] using hj⟩
          · rintro ⟨hm, j, rfl, hj⟩
            match j with
            | 0 =>
              left
              simp only [ok_ids] at hj
              simp at hj
              subst hj
              simp
            | j + 1 =>
              right
              refine ⟨hm, j, by omega, ?_⟩
              simpa [ok_ids] using hj
        · simp only [hn, if_false, Option.some_inj] at h
          subst h
          rw [ihr]
          constructor
          · rintro ⟨hm, j, rfl, hj⟩
            exact ⟨hm, j + 1, by omega, by simpa [ok_ids] using hj⟩
          · rintro ⟨hm, j, rfl, hj⟩
            match j with
            | 0 =>
              simp only [ok_ids] at hj
              simp at hj
              exfalso
              apply hn
              simpa using hm
            | j + 1 =>
              refine ⟨hm, j, by omega, ?_⟩
              simpa [ok_ids] using hj

theorem progress_logs_zero_of_ok :
    ∀ (l : List (Except Error ChangesetId)) (n : Nat) (c : ChangesetId),
      Except.ok c ∈ l → progress_logs 0 n l = none := by
  intro l
  induction l with
  | nil => simp
  | cons x rest ih =>
    match x with
    | .error e =>
      intro n c hc
      have : Except.ok c ∈ rest := by
        rcases List.mem_cons.mp hc with h | h
        · exact absurd h (by simp)
        · exact h
      simpa [progress_logs] using ih n c this
    | .ok a =>
      intro n c _
      simp [progress_logs]

theorem progress_logs_mem_ok {li : Nat} {c : ChangesetId} {m : Nat} :
    ∀ (l : List (Except Error ChangesetId)) (n : Nat) (logs : List LogEvent),
      progress_logs li n l = some logs →
      LogEvent.starting_hooks c m ∈ logs → Except.ok c ∈ l := by
  intro l
  induction l with
  | nil =>
    intro n logs h hm
    simp only [progress_logs, Option.some_inj] at h
    subst h
    simp at hm
  | cons x rest ih =>
    match x with
    | .error e =>
      intro n logs h hm
      exact List.mem_cons_of_mem _ (ih n logs (by simpa [progress_logs] using h) hm)
    | .ok a =>
      intro n logs h hm
      by_cases h0 : li = 0
      · simp [progress_logs, h0] at h
      · rcases h' : progress_logs li (n + 1) rest with _ | logs'
        · simp [progress_logs, h0, h'] at h
        · simp only [progress_logs, h0, if_false, h', Option.some_inj] at h
          subst h
          by_cases hn : n % li = 0
          · simp only [hn, if_true, List.mem_cons] at hm
            rcases hm with heq | hm
            · injection heq with h1 h2
              subst h1
              exact List.mem_cons_self _ _
            · exact List.mem_cons_of_mem _ (ih (n + 1) logs' h' hm)
          · simp only [hn, if_false] at hm
            exact List.mem_cons_of_mem _ (ih (n + 1) logs' h' hm)

theorem exclusion_filter_erase_excluded {ex : List ChangesetId} {c : ChangesetId}
    (hc : c ∈ ex) (input : List (Except Error ChangesetId)) :
    exclusion_filter ex (input.filter fun i => decide (i ≠ Except.ok c)) =
      exclusion_filter ex input := by
  unfold exclusion_filter
  rw [List.filter_filter]
  apply List.filter_congr
  intro i _
  match i with
  | .error e => simp
  | .ok a =>
    by_cases ha : a = c
    · subst ha
      simp [hc]
    · simp [ha]

/-! ## Buffered-machine invariants -/

theorem buf_step_inv {α β : Type} {k : Nat} {f : α → β} {s s' : BufState α β}
    (h : BufStep k f s s') :
    s'.output ++ (s'.inflight.map fun p => f p.1) ++ s'.remaining.map f =
      s.output ++ (s.inflight.map fun p => f p.1) ++ s.remaining.map f
    ∧ (s.inflight.length ≤ k → s'.inflight.length ≤ k) := by
  cases h with
  | pull a rest infl out hlt =>
    constructor
    · simp
    · intro _
      simp
      omega
  | finish rem l a r out =>
    constructor
    · simp
    · intro h
      simpa using h
  | emit rem a infl out =>
    constructor
    · simp
    · intro h
      simp at h ⊢
      omega

theorem buf_reaches_inv {α β : Type} {k : Nat} {f : α → β} {inputs : List α}
    {s : BufState α β} (h : BufReaches k f (init_state inputs) s) :
    s.output ++ (s.inflight.map fun p => f p.1) ++ s.remaining.map f = inputs.map f
    ∧ s.inflight.length ≤ k := by
  induction h with
  | refl => simp [init_state]
  | tail hab hbc ih =>
    obtain ⟨h1, h2⟩ := buf_step_inv hbc
    exact ⟨h1.trans ih.1, h2 ih.2⟩

/-! ## Concrete fixtures used by witnesses -/

/-- A concrete environment: every changeset loads as a non-merge with
`file_changes = c`, hooks succeed with one outcome, nothing panics, and
bookmark `main` resolves to changeset `10`. -/
def sample_env : Env where
  resolve_bookmark := fun b => if b = "main" then some 10 else none
  ancestors := fun h => [h, h - 1, h - 2]
  load := fun c => .ok ⟨1, c⟩
  run_hooks := fun c => .ok [c]
  hook_stats := fun _ => 7
  panics := fun _ => false

/-- A concrete tailer configuration. -/
def sample_tailer : Tailer where
  bookmark := "main"
  concurrency := 2
  log_interval := 1
  exclude_merges := false
  excludes := [3]

/-- The result of running the sample pipeline on the explicit input
`[ok 1, ok 2]`. -/
def sample_run : RunOutput where
  output := [.ok ⟨1, 1, 7, [1]⟩, .ok ⟨2, 2, 7, [2]⟩]
  plogs := [.starting_hooks 1 0, .starting_hooks 2 1]
  tlogs := [.running_hooks 1, .running_hooks 2]
  calls := [.load_changeset 1, .hook_run 1, .load_changeset 2, .hook_run 2]

/-- The task-result function of the sample pipeline's buffered stage. -/
def demo_task : Except Error ChangesetId → Except Error (Option HookExecutionInstance) :=
  slot_result sample_env sample_tailer.exclude_merges

/-- Drained buffered-stage state after both sample tasks have been emitted. -/
def demo_final : BufState (Except Error ChangesetId) (Except Error (Option HookExecutionInstance)) :=
  ⟨[], [], [demo_task (.ok 1), demo_task (.ok 2)]⟩

/-- A concrete execution of the buffered stage on the sample input in which
the SECOND task completes before the first: pull 1, pull 2, finish 2,
finish 1, emit 1, emit 2. -/
theorem demo_reaches :
    BufReaches 2 demo_task
      (init_state (exclusion_filter sample_tailer.excludes [Except.ok 1, Except.ok 2]))
      demo_final := by
  have h1 : BufStep 2 demo_task ⟨[Except.ok 1, Except.ok 2], [], []⟩
      ⟨[Except.ok 2], [(Except.ok 1, false)], []⟩ :=
    BufStep.pull (Except.ok 1) [Except.ok 2] [] [] (by simp)
  have h2 : BufStep 2 demo_task ⟨[Except.ok 2], [(Except.ok 1, false)], []⟩
      ⟨[], [(Except.ok 1, false), (Except.ok 2, false)], []⟩ :=
    BufStep.pull (Except.ok 2) [] [(Except.ok 1, false)] [] (by simp)
  have h3 : BufStep 2 demo_task ⟨[], [(Except.ok 1, false), (Except.ok 2, false)], []⟩
      ⟨[], [(Except.ok 1, false), (Except.ok 2, true)], []⟩ :=
    BufStep.finish [] [(Except.ok 1, false)] (Except.ok 2) [] []
  have h4 : BufStep 2 demo_task ⟨[], [(Except.ok 1, false), (Except.ok 2, true)], []⟩
      ⟨[], [(Except.ok 1, true), (Except.ok 2, true)], []⟩ :=
    BufStep.finish [] [] (Except.ok 1) [(Except.ok 2, true)] []
  have h5 : BufStep 2 demo_task ⟨[], [(Except.ok 1, true), (Except.ok 2, true)], []⟩
      ⟨[], [(Except.ok 2, true)], [demo_task (.ok 1)]⟩ :=
    BufStep.emit [] (Except.ok 1) [(Except.ok 2, true)] []
  have h6 : BufStep 2 demo_task ⟨[], [(Except.ok 2, true)], [demo_task (.ok 1)]⟩
      ⟨[], [], [demo_task (.ok 1), demo_task (.ok 2)]⟩ :=
    BufStep.emit [] (Except.ok 2) [] [demo_task (.ok 1)]
  show Relation.ReflTransGen (BufStep 2 demo_task) _ _
  exact .tail (.tail (.tail (.tail (.tail (.single h1) h2) h3) h4) h5) h6

/-! ## The claims -/

/-- Claim C1: for every input sequence and every concurrency value `k`, every
completed execution of the buffered stage (any completion order of the
individual tasks) emits results exactly in input order: the drained machine's
output is the in-order map of slot results over the surviving (filtered)
input, and its skip-filtered form is exactly what `run_on_stream` (hence
`run_changesets` and `run_with_limit`) emits. -/
theorem output_order_matches_input_order (t : Tailer) (env : Env)
    (input : List (Except Error ChangesetId)) (k : Nat)
    (s : BufState (Except Error ChangesetId) (Except Error (Option HookExecutionInstance)))
    (r : RunOutput)
    (hreach : BufReaches k (slot_result env t.exclude_merges)
      (init_state (exclusion_filter t.excludes input)) s)
    (hfin : BufFinal s)
    (hrun : run_on_stream t env input = some r) :
    s.output = (exclusion_filter t.excludes input).map (slot_result env t.exclude_merges)
    ∧ skip_filter s.output = r.output := by
  obtain ⟨hout, -⟩ := buf_reaches_inv hreach
  obtain ⟨hrem, hinfl⟩ := hfin
  rw [hrem, hinfl] at hout
  simp at hout
  refine ⟨hout, ?_⟩
  rw [hout, (run_on_stream_eq_some hrun).1]
  rfl

theorem output_order_matches_input_order_witness :
    BufFinal demo_final
    ∧ run_on_stream sample_tailer sample_env [Except.ok 1, Except.ok 2] = some sample_run
    ∧ (demo_final.output =
        (exclusion_filter sample_tailer.excludes [Except.ok 1, Except.ok 2]).map
          (slot_result sample_env sample_tailer.exclude_merges)
      ∧ skip_filter demo_final.output = sample_run.output) :=
  ⟨⟨rfl, rfl⟩, rfl,
    output_order_matches_input_order sample_tailer sample_env [Except.ok 1, Except.ok 2] 2
      demo_final sample_run demo_reaches ⟨rfl, rfl⟩ rfl⟩

/-- Claim C9: with `concurrency = k`, no reachable state of the buffered
stage has more than `k` tasks in flight, and the number of tasks ever started
(items pulled from the lazy source) never exceeds the number of results
already emitted plus `k` — no unbounded task creation. -/
theorem concurrency_window_bounded (t : Tailer) (env : Env)
    (input : List (Except Error ChangesetId)) (k : Nat)
    (s : BufState (Except Error ChangesetId) (Except Error (Option HookExecutionInstance)))
    (hreach : BufReaches k (slot_result env t.exclude_merges)
      (init_state (exclusion_filter t.excludes input)) s) :
    s.inflight.length ≤ k
    ∧ (exclusion_filter t.excludes input).length - s.remaining.length ≤
        s.output.length + k := by
  obtain ⟨hout, hlen⟩ := buf_reaches_inv hreach
  refine ⟨hlen, ?_⟩
  have hl := congrArg List.length hout
  simp [List.length_append] at hl
  omega

theorem concurrency_window_bounded_witness :
    BufReaches 2 (slot_result sample_env sample_tailer.exclude_merges)
      (init_state (exclusion_filter sample_tailer.excludes [Except.ok 1, Except.ok 2]))
      demo_final
    ∧ (demo_final.inflight.length ≤ 2
      ∧ (exclusion_filter sample_tailer.excludes [Except.ok 1, Except.ok 2]).length -
          demo_final.remaining.length ≤ demo_final.output.length + 2) :=
  ⟨demo_reaches,
    concurrency_window_bounded sample_tailer sample_env [Except.ok 1, Except.ok 2] 2
      demo_final demo_reaches⟩

/-- Claim C4: in bookmark-bounded mode, if bookmark resolution yields no
changeset, the result stream is exactly the single `NoSuchBookmark` error:
no collaborator call is made (in particular the changeset loader is never
invoked), no log is emitted, and no successful item is produced. -/
theorem missing_bookmark_fails_before_any_load (t : Tailer) (env : Env) (limit : Nat)
    (hres : env.resolve_bookmark t.bookmark = none) :
    run_with_limit t env limit =
      some { output := [.error (.noSuchBookmark t.bookmark)]
             plogs := [], tlogs := [], calls := [] }
    ∧ ∀ r, run_with_limit t env limit = some r →
        r.calls = [] ∧ ∀ x ∈ r.output, x = Except.error (Error.noSuchBookmark t.bookmark) := by
  have h : run_with_limit t env limit =
      some { output := [.error (.noSuchBookmark t.bookmark)]
             plogs := [], tlogs := [], calls := [] } := by
    simp [run_with_limit, hres]
  refine ⟨h, ?_⟩
  intro r hr
  rw [h] at hr
  injection hr with hr
  subst hr
  simp

theorem missing_bookmark_fails_before_any_load_witness :
    sample_env.resolve_bookmark ({ sample_tailer with bookmark := "other" } : Tailer).bookmark = none
    ∧ (run_with_limit { sample_tailer with bookmark := "other" } sample_env 5 =
        some { output := [.error (.noSuchBookmark "other")]
               plogs := [], tlogs := [], calls := [] }
      ∧ ∀ r, run_with_limit { sample_tailer with bookmark := "other" } sample_env 5 = some r →
          r.calls = [] ∧ ∀ x ∈ r.output, x = Except.error (Error.noSuchBookmark "other")) :=
  ⟨rfl, missing_bookmark_fails_before_any_load { sample_tailer with bookmark := "other" }
    sample_env 5 rfl⟩

/-- Claim C10: when `log_interval = 0`, the progress step evaluates
`count % 0` on the first changeset that passes the exclusion filter and the
pipeline panics (modelled as `run_on_stream` returning `none`); when
`log_interval > 0`, the progress step never panics, for every environment
and input. -/
theorem zero_log_interval_panics (t : Tailer) (env : Env)
    (input : List (Except Error ChangesetId)) (c : ChangesetId)
    (hli : t.log_interval = 0)
    (hc : Except.ok c ∈ exclusion_filter t.excludes input) :
    run_on_stream t env input = none
    ∧ ∀ (t' : Tailer) (env' : Env) (input' : List (Except Error ChangesetId)),
        0 < t'.log_interval → run_on_stream t' env' input' ≠ none := by
  constructor
  · have h0 : progress_logs t.log_interval 0 (exclusion_filter t.excludes input) = none := by
      rw [hli]
      exact progress_logs_zero_of_ok _ 0 c hc
    simp [run_on_stream, h0]
  · intro t' env' input' hli'
    rcases hp : progress_logs t'.log_interval 0 (exclusion_filter t'.excludes input')
      with _ | logs
    · have := progress_logs_isSome hli' 0 (exclusion_filter t'.excludes input')
      rw [hp] at this
      simp at this
    · simp [run_on_stream, hp]

theorem zero_log_interval_panics_witness :
    ({ sample_tailer with log_interval := 0 } : Tailer).log_interval = 0
    ∧ Except.ok 1 ∈ exclusion_filter ({ sample_tailer with log_interval := 0 } : Tailer).excludes
        [Except.ok 1]
    ∧ (run_on_stream { sample_tailer with log_interval := 0 } sample_env [Except.ok 1] = none
      ∧ ∀ (t' : Tailer) (env' : Env) (input' : List (Except Error ChangesetId)),
          0 < t'.log_interval → run_on_stream t' env' input' ≠ none) :=
  ⟨rfl, by decide,
    zero_log_interval_panics { sample_tailer with log_interval := 0 } sample_env
      [Except.ok 1] 1 rfl (by decide)⟩

/-- Claim C3: for a changeset with more than one parent, with
`exclude_merges = true` the evaluator returns `ok none` (no result, not an
error) without any hook-engine call, exactly one informational skip log is
emitted, and the pipeline's final output stream has no item for it; with
`exclude_merges = false` the same changeset yields a normal
`HookExecutionInstance` output item. -/
theorem merge_exclusion_policy (t : Tailer) (env : Env) (c : ChangesetId)
    (cs : Changeset) (outs : List HookOutcome)
    (hload : env.load c = .ok cs) (hm : 1 < cs.parents)
    (hnp : env.panics c = false) (hout : env.run_hooks c = .ok outs)
    (hex : c ∉ t.excludes) (hli : 0 < t.log_interval) :
    run_hooks_for_changeset env true c = (.ok none, [.skipped_merge c], [.load_changeset c])
    ∧ run_changesets { t with exclude_merges := true } env [c] =
        some { output := []
               plogs := [.starting_hooks c 0]
               tlogs := [.skipped_merge c]
               calls := [.load_changeset c] }
    ∧ run_changesets { t with exclude_merges := false } env [c] =
        some { output := [.ok ⟨c, cs.file_changes, env.hook_stats c, outs⟩]
               plogs := [.starting_hooks c 0]
               tlogs := [.running_hooks c]
               calls := [.load_changeset c, .hook_run c] } := by
  have hmerge : cs.is_merge = true := by
    simp [Changeset.is_merge, hm]
  have hfil : exclusion_filter t.excludes [Except.ok c] = [Except.ok c] := by
    simp [exclusion_filter, hex]
  have hne : ¬ t.log_interval = 0 := by omega
  have hplog : progress_logs t.log_interval 0 [Except.ok c] =
      some [.starting_hooks c 0] := by
    simp [progress_logs, hne]
  refine ⟨?_, ?_, ?_⟩
  · simp [run_hooks_for_changeset, hload, hmerge]
  · simp [run_changesets, run_on_stream, hfil, hplog, eval_slot, hnp,
      run_hooks_for_changeset, hload, hmerge, skip_filter]
  · simp [run_changesets, run_on_stream, hfil, hplog, eval_slot, hnp,
      run_hooks_for_changeset, hload, hmerge, hout, skip_filter]

theorem merge_exclusion_policy_witness :
    ({ sample_env with load := fun c => .ok ⟨2, c⟩ } : Env).load 1 = .ok ⟨2, 1⟩
    ∧ (1 : Nat) < (⟨2, 1⟩ : Changeset).parents
    ∧ (run_hooks_for_changeset { sample_env with load := fun c => .ok ⟨2, c⟩ } true 1 =
        (.ok none, [.skipped_merge 1], [.load_changeset 1])
      ∧ run_changesets { sample_tailer with exclude_merges := true }
          { sample_env with load := fun c => .ok ⟨2, c⟩ } [1] =
          some { output := []
                 plogs := [.starting_hooks 1 0]
                 tlogs := [.skipped_merge 1]
                 calls := [.load_changeset 1] }
      ∧ run_changesets { sample_tailer with exclude_merges := false }
          { sample_env with load := fun c => .ok ⟨2, c⟩ } [1] =
          some { output := [.ok ⟨1, 1, 7, [1]⟩]
                 plogs := [.starting_hooks 1 0]
                 tlogs := [.running_hooks 1]
                 calls := [.load_changeset 1, .hook_run 1] }) :=
  ⟨rfl, by decide,
    merge_exclusion_policy sample_tailer { sample_env with load := fun c => .ok ⟨2, c⟩ }
      1 ⟨2, 1⟩ [1] rfl (by decide) rfl rfl (by decide) (by decide)⟩

/-- Claim C2: a changeset in the exclusion set never reaches the changeset
loader or the hook engine (no traced call names it), never advances the
progress counter (no progress log names it), and produces no output item;
moreover deleting its occurrences from the input leaves the whole run
unchanged, i.e. the exclusion filter acts before progress counting and
before any evaluation task exists. -/
theorem excluded_changesets_untouched (t : Tailer) (env : Env)
    (input : List (Except Error ChangesetId)) (c : ChangesetId) (r : RunOutput)
    (hc : c ∈ t.excludes)
    (hrun : run_on_stream t env input = some r) :
    (∀ x ∈ r.calls, x ≠ Call.load_changeset c ∧ x ≠ Call.hook_run c)
    ∧ (∀ n, LogEvent.starting_hooks c n ∉ r.plogs)
    ∧ (∀ inst : HookExecutionInstance, Except.ok inst ∈ r.output → inst.cs_id ≠ c)
    ∧ run_on_stream t env (input.filter fun i => decide (i ≠ Except.ok c)) = some r := by
  obtain ⟨hout, hplog, htlog, hcalls⟩ := run_on_stream_eq_some hrun
  have hnotmem : Except.ok c ∉ exclusion_filter t.excludes input := fun hmem =>
    mem_exclusion_filter_not_excluded hmem hc
  refine ⟨?_, ?_, ?_, ?_⟩
  · intro x hx
    rw [hcalls, List.mem_flatten] at hx
    obtain ⟨ll, hll, hxll⟩ := hx
    rw [List.mem_map] at hll
    obtain ⟨p, hp, rfl⟩ := hll
    rw [List.mem_map] at hp
    obtain ⟨i, hi, rfl⟩ := hp
    obtain ⟨c', hic, hx'⟩ := eval_slot_calls_mem hxll
    subst hic
    have hc' : c' ∉ t.excludes := mem_exclusion_filter_not_excluded hi
    have hne : c' ≠ c := fun h => hc' (h ▸ hc)
    rcases hx' with rfl | rfl
    · exact ⟨fun h => hne (Call.load_changeset.inj h), fun h => Call.noConfusion h⟩
    · exact ⟨fun h => Call.noConfusion h, fun h => hne (Call.hook_run.inj h)⟩
  · intro n hmem
    exact hnotmem (progress_logs_mem_ok _ 0 r.plogs hplog hmem)
  · intro inst hmem heq
    rw [hout] at hmem
    have := mem_of_mem_skip_filter hmem
    rw [List.mem_map] at this
    obtain ⟨i, hi, hres⟩ := this
    match i with
    | .error e => exact Except.noConfusion hres
    | .ok c' =>
      have : inst.cs_id = c' := eval_slot_ok_cs_id hres
      rw [heq] at this
      subst this
      exact hnotmem hi
  · have hfe := exclusion_filter_erase_excluded hc input
    simp only [run_on_stream] at hrun ⊢
    rw [hfe]
    exact hrun

theorem excluded_changesets_untouched_witness :
    (3 : ChangesetId) ∈ sample_tailer.excludes
    ∧ run_on_stream sample_tailer sample_env [Except.ok 1, Except.ok 3] =
        some { output := [.ok ⟨1, 1, 7, [1]⟩]
               plogs := [.starting_hooks 1 0]
               tlogs := [.running_hooks 1]
               calls := [.load_changeset 1, .hook_run 1] }
    ∧ ((∀ x ∈ ({ output := [.ok ⟨1, 1, 7, [1]⟩]
                 plogs := [.starting_hooks 1 0]
                 tlogs := [.running_hooks 1]
                 calls := [.load_changeset 1, .hook_run 1] } : RunOutput).calls,
          x ≠ Call.load_changeset 3 ∧ x ≠ Call.hook_run 3)
      ∧ (∀ n, LogEvent.starting_hooks 3 n ∉
          ({ output := [.ok ⟨1, 1, 7, [1]⟩]
             plogs := [.starting_hooks 1 0]
             tlogs := [.running_hooks 1]
             calls := [.load_changeset 1, .hook_run 1] } : RunOutput).plogs)
      ∧ (∀ inst : HookExecutionInstance,
          Except.ok inst ∈ ({ output := [.ok ⟨1, 1, 7, [1]⟩]
                              plogs := [.starting_hooks 1 0]
                              tlogs := [.running_hooks 1]
                              calls := [.load_changeset 1, .hook_run 1] } : RunOutput).output →
            inst.cs_id ≠ 3)
      ∧ run_on_stream sample_tailer sample_env
          ([Except.ok 1, Except.ok 3].filter fun i => decide (i ≠ Except.ok 3)) =
          some { output := [.ok ⟨1, 1, 7, [1]⟩]
                 plogs := [.starting_hooks 1 0]
                 tlogs := [.running_hooks 1]
                 calls := [.load_changeset 1, .hook_run 1] }) :=
  ⟨by decide, rfl,
    excluded_changesets_untouched sample_tailer sample_env [Except.ok 1, Except.ok 3] 3 _
      (by decide) rfl⟩

/-- Claim C7: the progress counter starts at zero and counts exactly the
changesets that pass the exclusion filter, in order: a progress log
`starting_hooks c n` appears iff `c` is the `n`-th surviving ok item and the
pre-increment counter satisfies `n % log_interval = 0`; and the progress logs
are independent of the environment, so changesets that will later be
merge-skipped (or fail) are counted all the same. -/
theorem progress_counter_spec (t : Tailer) (env : Env)
    (input : List (Except Error ChangesetId)) (r : RunOutput)
    (hli : 0 < t.log_interval)
    (hrun : run_on_stream t env input = some r) :
    (∀ (c : ChangesetId) (n : Nat),
        LogEvent.starting_hooks c n ∈ r.plogs ↔
          ((ok_ids (exclusion_filter t.excludes input))[n]? = some c
            ∧ n % t.log_interval = 0))
    ∧ ∀ (env' : Env) (r' : RunOutput),
        run_on_stream t env' input = some r' → r'.plogs = r.plogs := by
  obtain ⟨-, hplog, -, -⟩ := run_on_stream_eq_some hrun
  constructor
  · intro c n
    rw [progress_logs_mem_iff hli _ 0 r.plogs hplog c n]
    constructor
    · rintro ⟨hm, j, rfl, hj⟩
      constructor
      · simpa using hj
      · simpa using hm
    · rintro ⟨hj, hm⟩
      exact ⟨hm, n, by omega, hj⟩
  · intro env' r' hrun'
    obtain ⟨-, hplog', -, -⟩ := run_on_stream_eq_some hrun'
    rw [hplog] at hplog'
    injection hplog' with h
    exact h.symm

theorem progress_counter_spec_witness :
    0 < sample_tailer.log_interval
    ∧ run_on_stream sample_tailer sample_env [Except.ok 1, Except.ok 2] = some sample_run
    ∧ ((∀ (c : ChangesetId) (n : Nat),
          LogEvent.starting_hooks c n ∈ sample_run.plogs ↔
            ((ok_ids (exclusion_filter sample_tailer.excludes
                [Except.ok 1, Except.ok 2]))[n]? = some c
              ∧ n % sample_tailer.log_interval = 0))
      ∧ ∀ (env' : Env) (r' : RunOutput),
          run_on_stream sample_tailer env' [Except.ok 1, Except.ok 2] = some r' →
            r'.plogs = sample_run.plogs) :=
  ⟨by decide, rfl,
    progress_counter_spec sample_tailer sample_env [Except.ok 1, Except.ok 2] sample_run
      (by decide) rfl⟩

/-- Splitting lemma: a slot whose evaluation yields an error contributes
exactly one error item at its input-order position, and the outputs of the
slots before and after it are untouched. -/
theorem stream_output_split (t : Tailer) (env : Env)
    (pre post : List (Except Error ChangesetId)) (c : ChangesetId) (e : Error)
    (hc : c ∉ t.excludes)
    (herr : slot_result env t.exclude_merges (Except.ok c) = Except.error e) :
    stream_output t env (pre ++ Except.ok c :: post) =
      stream_output t env pre ++ Except.error e :: stream_output t env post := by
  unfold stream_output
  rw [exclusion_filter_ok_not_excluded hc, List.map_append, skip_filter_append,
    List.map_cons, herr]
  simp [skip_filter]

/-- If two environments agree on the loader, the hook engine and the stats,
the evaluator behaves identically under them (it reads nothing else). -/
theorem run_hooks_for_changeset_congr {env env' : Env}
    (hl : env'.load = env.load) (hh : env'.run_hooks = env.run_hooks)
    (hs : env'.hook_stats = env.hook_stats) (em : Bool) (c : ChangesetId) :
    run_hooks_for_changeset env' em c = run_hooks_for_changeset env em c := by
  unfold run_hooks_for_changeset
  rw [hl, hh, hs]

/-- Claim C5: a changeset whose evaluation fails (load failure or hook-engine
failure) appears as an error value at exactly its input-order position; the
stream does not stop there — the outputs of the slots before and after it are
exactly what they would be on their own — and the failing slot invoked the
loader at most once and the hook engine at most once (no retry). -/
theorem slot_errors_positioned_and_isolated (t : Tailer) (env : Env)
    (pre post : List (Except Error ChangesetId)) (c : ChangesetId) (e : Error)
    (hc : c ∉ t.excludes)
    (herr : slot_result env t.exclude_merges (Except.ok c) = Except.error e) :
    stream_output t env (pre ++ Except.ok c :: post) =
      stream_output t env pre ++ Except.error e :: stream_output t env post
    ∧ (∀ r, run_on_stream t env (pre ++ Except.ok c :: post) = some r →
        r.output = stream_output t env pre ++ Except.error e :: stream_output t env post)
    ∧ (eval_slot env t.exclude_merges (Except.ok c)).2.2.count (Call.load_changeset c) ≤ 1
    ∧ (eval_slot env t.exclude_merges (Except.ok c)).2.2.count (Call.hook_run c) ≤ 1 := by
  have hsplit := stream_output_split t env pre post c e hc herr
  refine ⟨hsplit, ?_, eval_slot_load_count env _ c, eval_slot_hook_count env _ c⟩
  intro r hr
  rw [(run_on_stream_eq_some hr).1, hsplit]

/-- Environment in which changeset 5 fails to load and everything else
behaves like `sample_env`. -/
def failing_env : Env :=
  { sample_env with
    load := fun c => if c = 5 then .error (.storage 5) else .ok ⟨1, c⟩ }

theorem slot_errors_positioned_and_isolated_witness :
    (5 : ChangesetId) ∉ sample_tailer.excludes
    ∧ slot_result failing_env sample_tailer.exclude_merges (Except.ok 5) =
        Except.error (Error.storage 5)
    ∧ (stream_output sample_tailer failing_env
          ([Except.ok 1] ++ Except.ok 5 :: [Except.ok 2]) =
        stream_output sample_tailer failing_env [Except.ok 1] ++
          Except.error (Error.storage 5) :: stream_output sample_tailer failing_env [Except.ok 2]
      ∧ (∀ r, run_on_stream sample_tailer failing_env
            ([Except.ok 1] ++ Except.ok 5 :: [Except.ok 2]) = some r →
          r.output = stream_output sample_tailer failing_env [Except.ok 1] ++
            Except.error (Error.storage 5) ::
              stream_output sample_tailer failing_env [Except.ok 2])
      ∧ (eval_slot failing_env sample_tailer.exclude_merges (Except.ok 5)).2.2.count
          (Call.load_changeset 5) ≤ 1
      ∧ (eval_slot failing_env sample_tailer.exclude_merges (Except.ok 5)).2.2.count
          (Call.hook_run 5) ≤ 1) :=
  ⟨by decide, rfl,
    slot_errors_positioned_and_isolated sample_tailer failing_env
      [Except.ok 1] [Except.ok 2] 5 (Error.storage 5) (by decide) rfl⟩

/-- Claim C6: abrupt termination of the spawned evaluation task for a
changeset becomes `Error.spawnFailure` occupying exactly that changeset's
slot in the output stream (never dropped), the outputs of the slots before
and after it are untouched, and flipping one changeset's panic flag does not
change any other slot's evaluation. -/
theorem task_panic_becomes_slot_error (t : Tailer) (env : Env)
    (pre post : List (Except Error ChangesetId)) (c : ChangesetId)
    (hc : c ∉ t.excludes)
    (hp : env.panics c = true) :
    slot_result env t.exclude_merges (Except.ok c) = Except.error Error.spawnFailure
    ∧ stream_output t env (pre ++ Except.ok c :: post) =
        stream_output t env pre ++
          Except.error Error.spawnFailure :: stream_output t env post
    ∧ ∀ c' : ChangesetId, c' ≠ c →
        eval_slot { env with panics := fun x => if x = c then true else env.panics x }
            t.exclude_merges (Except.ok c')
          = eval_slot env t.exclude_merges (Except.ok c') := by
  have hres : slot_result env t.exclude_merges (Except.ok c) =
      Except.error Error.spawnFailure := by
    simp [slot_result, eval_slot, hp]
  refine ⟨hres, stream_output_split t env pre post c _ hc hres, ?_⟩
  intro c' hne
  cases henv : env.panics c' with
  | true => simp [eval_slot, hne, henv]
  | false =>
    simp only [eval_slot]
    simp only [hne, if_false, henv, Bool.false_eq_true, Bool.not_eq_true]
    exact run_hooks_for_changeset_congr rfl rfl rfl _ _

/-- Environment in which the spawned task for changeset 5 panics. -/
def panicking_env : Env :=
  { sample_env with panics := fun c => c = 5 }

theorem task_panic_becomes_slot_error_witness :
    (5 : ChangesetId) ∉ sample_tailer.excludes
    ∧ panicking_env.panics 5 = true
    ∧ (slot_result panicking_env sample_tailer.exclude_merges (Except.ok 5) =
        Except.error Error.spawnFailure
      ∧ stream_output sample_tailer panicking_env
          ([Except.ok 1] ++ Except.ok 5 :: [Except.ok 2]) =
          stream_output sample_tailer panicking_env [Except.ok 1] ++
            Except.error Error.spawnFailure ::
              stream_output sample_tailer panicking_env [Except.ok 2]
      ∧ ∀ c' : ChangesetId, c' ≠ 5 →
          eval_slot
              { panicking_env with
                panics := fun x => if x = 5 then true else panicking_env.panics x }
              sample_tailer.exclude_merges (Except.ok c')
            = eval_slot panicking_env sample_tailer.exclude_merges (Except.ok c')) :=
  ⟨by decide, rfl,
    task_panic_becomes_slot_error sample_tailer panicking_env
      [Except.ok 1] [Except.ok 2] 5 (by decide) rfl⟩

/-- Claim C8: in bookmark-bounded mode the changeset source is the ancestor
enumeration of the resolved head truncated to at most `limit` items before
any filtering or evaluation, so the run evaluates at most `limit` changesets:
the output has at most `limit` items and the loader is invoked at most
`limit` times. -/
theorem limit_bounds_enumeration_and_evaluation (t : Tailer) (env : Env)
    (limit : Nat) (head : ChangesetId) (r : RunOutput)
    (hres : env.resolve_bookmark t.bookmark = some head)
    (hrun : run_with_limit t env limit = some r) :
    ((env.ancestors head).take limit).length ≤ limit
    ∧ run_with_limit t env limit =
        run_on_stream t env (((env.ancestors head).take limit).map Except.ok)
    ∧ r.output.length ≤ limit
    ∧ r.calls.countP Call.is_load ≤ limit := by
  have heq : run_with_limit t env limit =
      run_on_stream t env (((env.ancestors head).take limit).map Except.ok) := by
    simp [run_with_limit, hres]
  have htake : ((env.ancestors head).take limit).length ≤ limit := by
    simp [List.length_take]
  rw [heq] at hrun
  obtain ⟨hout, -, -, hcalls⟩ := run_on_stream_eq_some hrun
  have hfiltered : (exclusion_filter t.excludes
      (((env.ancestors head).take limit).map Except.ok)).length ≤ limit := by
    calc (exclusion_filter t.excludes
        (((env.ancestors head).take limit).map Except.ok)).length
        ≤ (((env.ancestors head).take limit).map Except.ok).length :=
          List.length_filter_le _ _
      _ = ((env.ancestors head).take limit).length := List.length_map _ _
      _ ≤ limit := htake
  refine ⟨htake, heq, ?_, ?_⟩
  · rw [hout]
    calc (stream_output t env (((env.ancestors head).take limit).map Except.ok)).length
        ≤ ((exclusion_filter t.excludes
            (((env.ancestors head).take limit).map Except.ok)).map
              (slot_result env t.exclude_merges)).length := skip_filter_length_le _
      _ ≤ limit := by
          rw [List.length_map]
          exact hfiltered
  · rw [hcalls, List.countP_flatten]
    have hone : ∀ x ∈ (((exclusion_filter t.excludes
        (((env.ancestors head).take limit).map Except.ok)).map
          (eval_slot env t.exclude_merges)).map fun p => p.2.2).map
            (List.countP Call.is_load), x ≤ 1 := by
      intro x hx
      rw [List.mem_map] at hx
      obtain ⟨ll, hll, rfl⟩ := hx
      rw [List.mem_map] at hll
      obtain ⟨p, hp, rfl⟩ := hll
      rw [List.mem_map] at hp
      obtain ⟨i, _, rfl⟩ := hp
      exact eval_slot_countP_load_le_one env _ i
    calc ((((exclusion_filter t.excludes
        (((env.ancestors head).take limit).map Except.ok)).map
          (eval_slot env t.exclude_merges)).map fun p => p.2.2).map
            (List.countP Call.is_load)).sum
        ≤ ((((exclusion_filter t.excludes
            (((env.ancestors head).take limit).map Except.ok)).map
              (eval_slot env t.exclude_merges)).map fun p => p.2.2).map
                (List.countP Call.is_load)).length * 1 := by
          have := List.sum_le_card_nsmul ((((exclusion_filter t.excludes
            (((env.ancestors head).take limit).map Except.ok)).map
              (eval_slot env t.exclude_merges)).map fun p => p.2.2).map
                (List.countP Call.is_load)) 1 hone
          simpa [smul_eq_mul, Nat.mul_comm] using this
      _ ≤ limit := by
          simp only [List.length_map, Nat.mul_one]
          exact hfiltered

theorem limit_bounds_enumeration_and_evaluation_witness :
    sample_env.resolve_bookmark sample_tailer.bookmark = some 10
    ∧ run_with_limit sample_tailer sample_env 2 =
        some { output := [.ok ⟨10, 10, 7, [10]⟩, .ok ⟨9, 9, 7, [9]⟩]
               plogs := [.starting_hooks 10 0, .starting_hooks 9 1]
               tlogs := [.running_hooks 10, .running_hooks 9]
               calls := [.load_changeset 10, .hook_run 10, .load_changeset 9, .hook_run 9] }
    ∧ (((sample_env.ancestors 10).take 2).length ≤ 2
      ∧ run_with_limit sample_tailer sample_env 2 =
          run_on_stream sample_tailer sample_env
            (((sample_env.ancestors 10).take 2).map Except.ok)
      ∧ ({ output := [.ok ⟨10, 10, 7, [10]⟩, .ok ⟨9, 9, 7, [9]⟩]
           plogs := [.starting_hooks 10 0, .starting_hooks 9 1]
           tlogs := [.running_hooks 10, .running_hooks 9]
           calls := [.load_changeset 10, .hook_run 10, .load_changeset 9, .hook_run 9] } :
            RunOutput).output.length ≤ 2
      ∧ ({ output := [.ok ⟨10, 10, 7, [10]⟩, .ok ⟨9, 9, 7, [9]⟩]
           plogs := [.starting_hooks 10 0, .starting_hooks 9 1]
           tlogs := [.running_hooks 10, .running_hooks 9]
           calls := [.load_changeset 10, .hook_run 10, .load_changeset 9, .hook_run 9] } :
            RunOutput).calls.countP Call.is_load ≤ 2) :=
  ⟨rfl, rfl,
    limit_bounds_enumeration_and_evaluation sample_tailer sample_env 2 10 _ rfl rfl⟩

end HookTailer
